import Mathlib

/-!
Shallow embedding of the simple crowdfund pallet
(src/building_pallets/pallets/pallet-crowdfund/src/lib.rs).

Modelling choices, each tied to the source:
* `BalanceOf<T>` is the standard 128-bit unsigned balance type; arithmetic
  on it is `Nat` with an explicit modulus `W = 2 ^ 128` where the source
  uses unchecked `+` / `+=` (release-build wrapping semantics), and
  `satAdd` where the source calls `saturating_add`.
* `FundIndex` is `u32` in the source (`pub type FundIndex = u32`); the
  unguarded `index + 1` in `create` (source comment: "not protected
  against overflow") is therefore `(index + 1) % IDXMOD` with
  `IDXMOD = 2 ^ 32`.
* The `Currency` collaborator (`withdraw`, `transfer`,
  `resolve_creating`) is modelled per its contract: atomic, failing with
  no state change exactly when the source account lacks the amount.
* `ensure_signed` is modelled by taking the already-authenticated caller
  as an argument (claims under scrutiny all concern authenticated calls).
* Storage (`Funds`, `FundCount`, and the per-fund child tries written by
  `contribution_put` / read by `contribution_get`) is explicit state.
  The child-trie namespace derived by `id_from_index` (hash of
  `"crowdfnd" ++ index.to_le_bytes()`) is modelled as keying ledger
  entries by the `FundIndex` itself, the hash being injective per fund.
-/

namespace Crowdfund

/-- Modulus of the 128-bit unsigned balance type. -/
def W : Nat := 2 ^ 128

/-- Modulus of `FundIndex` (`u32` in the source). -/
def IDXMOD : Nat := 2 ^ 32

/-- Account identities: ordinary accounts, and the pot accounts produced
by `fund_account_id` (`PALLET_ID.into_sub_account(index)`), which are
disjoint from user accounts by the module-id prefix. -/
inductive AccountId
  | user (n : Nat)
  | pot (i : Nat)
deriving DecidableEq

/-- `Pallet::fund_account_id`: the deterministic pot account of a fund. -/
def fund_account_id (index : Nat) : AccountId := .pot index

/-- `FundInfo` record from the source (field `end` renamed `endBlock`,
`end` being reserved). -/
structure FundInfo where
  beneficiary : AccountId
  deposit : Nat
  raised : Nat
  endBlock : Nat
  goal : Nat
deriving DecidableEq

/-- One child-trie entry: (fund index, contributor, balance). -/
abbrev Ledger := List (Nat × AccountId × Nat)

/-- First-match lookup in the contribution ledger. -/
def ledgerGet (l : Ledger) (i : Nat) (w : AccountId) : Option Nat :=
  match l with
  | [] => none
  | e :: rest => if e.1 = i ∧ e.2.1 = w then some e.2.2 else ledgerGet rest i w

/-- Upsert into the contribution ledger (`child::put`). -/
def ledgerPut (l : Ledger) (i : Nat) (w : AccountId) (b : Nat) : Ledger :=
  match l with
  | [] => [(i, w, b)]
  | e :: rest =>
    if e.1 = i ∧ e.2.1 = w then (i, w, b) :: rest else e :: ledgerPut rest i w b

/-- Remove one entry (`child::kill`). -/
def ledgerKill (l : Ledger) (i : Nat) (w : AccountId) : Ledger :=
  match l with
  | [] => []
  | e :: rest => if e.1 = i ∧ e.2.1 = w then rest else e :: ledgerKill rest i w

/-- Remove a whole fund namespace (`child::kill_storage`). -/
def ledgerKillAll (l : Ledger) (i : Nat) : Ledger :=
  l.filter (fun e => ¬ e.1 = i)

/-- The pallet's storage plus the currency collaborator's account map. -/
structure State where
  accounts : AccountId → Nat
  funds : Nat → Option FundInfo
  fundCount : Nat
  ledger : Ledger

/-- `Pallet::contribution_get`: default-valued child-trie read. -/
def contribution_get (s : State) (index : Nat) (who : AccountId) : Nat :=
  (ledgerGet s.ledger index who).getD 0

/-- `Pallet::contribution_put`. -/
def contribution_put (s : State) (index : Nat) (who : AccountId) (balance : Nat) :
    State :=
  { s with ledger := ledgerPut s.ledger index who balance }

/-- `Pallet::contribution_kill`. -/
def contribution_kill (s : State) (index : Nat) (who : AccountId) : State :=
  { s with ledger := ledgerKill s.ledger index who }

/-- `Pallet::crowdfund_kill`. -/
def crowdfund_kill (s : State) (index : Nat) : State :=
  { s with ledger := ledgerKillAll s.ledger index }

/-- `saturating_add` at the balance type. -/
def satAdd (a b : Nat) : Nat := min (a + b) (W - 1)

/-- Unchecked `+` at the balance type (release-build wrap). -/
def wrapAdd (a b : Nat) : Nat := (a + b) % W

/-- `Currency::withdraw`: fails (state untouched) iff the account lacks
the amount; otherwise debits it and yields the imbalance's new map. -/
def currencyWithdraw (acc : AccountId → Nat) (who : AccountId) (amount : Nat) :
    Option (AccountId → Nat) :=
  if amount ≤ acc who then
    some (fun a => if a = who then acc who - amount else acc a)
  else none

/-- `Currency::transfer` with `AllowDeath`: fails iff the source lacks
the value; credits the destination with balance-type wrap. -/
def currencyTransfer (acc : AccountId → Nat) (src dst : AccountId) (value : Nat) :
    Option (AccountId → Nat) :=
  if value ≤ acc src then
    let acc1 := fun a => if a = src then acc src - value else acc a
    some (fun a => if a = dst then wrapAdd (acc1 dst) value else acc1 a)
  else none

/-- `Currency::resolve_creating`: infallible credit. -/
def resolveCreating (acc : AccountId → Nat) (who : AccountId) (amount : Nat) :
    AccountId → Nat :=
  fun a => if a = who then wrapAdd (acc who) amount else acc a

/-- The pallet's `Error` enum. -/
inductive CfError
  | EndTooEarly
  | ContributionTooSmall
  | InvalidIndex
  | ContributionPeriodOver
  | FundStillActive
  | NoContribution
  | FundNotRetired
  | UnsuccessfulFund
deriving DecidableEq

/-- A dispatch error: a pallet error, or a propagated currency failure. -/
inductive DispatchError
  | module (e : CfError)
  | fundsUnavailable
deriving DecidableEq

/-- The externally supplied configuration constants. -/
structure Config where
  submissionDeposit : Nat
  minContribution : Nat
  retirementPeriod : Nat

/-- `Pallet::create`, line for line: EndTooEarly check, deposit
withdrawal, index allocation with the unguarded `index + 1`,
`resolve_creating` into the pot, record insertion with `raised = 0`. -/
def create (cfg : Config) (s : State) (creator beneficiary : AccountId)
    (goal endBlock now : Nat) : Except DispatchError State :=
  if endBlock > now then
    match currencyWithdraw s.accounts creator cfg.submissionDeposit with
    | none => .error .fundsUnavailable
    | some acc1 =>
      let index := s.fundCount
      let acc2 := resolveCreating acc1 (fund_account_id index) cfg.submissionDeposit
      .ok { accounts := acc2
            funds := fun j =>
              if j = index then
                some { beneficiary := beneficiary
                       deposit := cfg.submissionDeposit
                       raised := 0
                       endBlock := endBlock
                       goal := goal }
              else s.funds j
            fundCount := (index + 1) % IDXMOD
            ledger := s.ledger }
  else .error (.module .EndTooEarly)

/-- `Pallet::contribute`, line for line: minimum check, fund lookup,
deadline check, currency transfer, `raised +=` (wrapping), record
write-back, saturating ledger update. -/
def contribute (cfg : Config) (s : State) (who : AccountId)
    (index value now : Nat) : Except DispatchError State :=
  if cfg.minContribution ≤ value then
    match s.funds index with
    | none => .error (.module .InvalidIndex)
    | some fund =>
      if fund.endBlock > now then
        match currencyTransfer s.accounts who (fund_account_id index) value with
        | none => .error .fundsUnavailable
        | some acc1 =>
          let fund1 : FundInfo := { fund with raised := wrapAdd fund.raised value }
          let s1 : State :=
            { accounts := acc1
              funds := fun j => if j = index then some fund1 else s.funds j
              fundCount := s.fundCount
              ledger := s.ledger }
          let balance := contribution_get s1 index who
          let balance1 := satAdd balance value
          .ok (contribution_put s1 index who balance1)
      else .error (.module .ContributionPeriodOver)
  else .error (.module .ContributionTooSmall)

/-- The two dispatchables the source implements, as trace events; each
carries the block number at which it executes. -/
inductive Op
  | create (creator beneficiary : AccountId) (goal endBlock now : Nat)
  | contribute (who : AccountId) (index value now : Nat)

/-- One dispatched extrinsic: a failed dispatch leaves state unchanged
(every error in the source returns before any storage write). -/
def step (cfg : Config) (s : State) : Op → State
  | .create c b g e n =>
    match create cfg s c b g e n with
    | .ok s' => s'
    | .error _ => s
  | .contribute w i v n =>
    match contribute cfg s w i v n with
    | .ok s' => s'
    | .error _ => s

/-- Run a trace of dispatches. -/
def run (cfg : Config) (s : State) : List Op → State
  | [] => s
  | op :: rest => run cfg (step cfg s op) rest

/-- Genesis: no funds, counter at zero, empty ledger, given endowments. -/
def genesis (init : AccountId → Nat) : State :=
  { accounts := init
    funds := fun _ => none
    fundCount := 0
    ledger := [] }

/-- The `raised` field of a fund, zero if the fund is absent. -/
def getRaised (s : State) (index : Nat) : Nat :=
  match s.funds index with
  | some f => f.raised
  | none => 0

/-- Sum of the contribution-ledger balances in one fund's namespace. -/
def sumFund (l : Ledger) (i : Nat) : Nat :=
  match l with
  | [] => 0
  | e :: rest => (if e.1 = i then e.2.2 else 0) + sumFund rest i

/-- Whether a dispatch result is a success. -/
def resultOk : Except DispatchError State → Bool
  | .ok _ => true
  | .error _ => false

/-- Number of `create` dispatches in a trace. -/
def countCreates : List Op → Nat
  | [] => 0
  | .create .. :: rest => countCreates rest + 1
  | .contribute .. :: rest => countCreates rest

/-- The fund indices allocated by the successful `create`s of a trace,
in order. -/
def allocatedIndices (cfg : Config) (s : State) : List Op → List Nat
  | [] => []
  | .create c b g e n :: rest =>
    match create cfg s c b g e n with
    | .ok s' => s.fundCount :: allocatedIndices cfg s' rest
    | .error _ => allocatedIndices cfg s rest
  | .contribute w i v n :: rest =>
    allocatedIndices cfg (step cfg s (.contribute w i v n)) rest

/-- Every successful `contribute` in the trace keeps the fund's `raised`
strictly below the balance modulus, i.e. the unchecked `raised += value`
never wraps. -/
def noRaisedOverflow (cfg : Config) (s : State) : List Op → Bool
  | [] => true
  | op :: rest =>
    (match op with
     | .create .. => true
     | .contribute who index value now =>
       match contribute cfg s who index value now with
       | .ok _ => decide (getRaised s index + value < W)
       | .error _ => true) && noRaisedOverflow cfg (step cfg s op) rest

/-! ### Concrete demonstration data for witnesses -/

/-- A demonstration configuration. -/
def demoCfg : Config :=
  { submissionDeposit := 10, minContribution := 100, retirementPeriod := 5 }

/-- A demonstration fund record ending at block 5. -/
def demoFund : FundInfo :=
  { beneficiary := .user 9, deposit := 10, raised := 0, endBlock := 5, goal := 300 }

/-- A demonstration state with one fund at index 0. -/
def demoState : State :=
  { accounts := fun _ => 1000
    funds := fun j => if j = 0 then some demoFund else none
    fundCount := 1
    ledger := [] }

/-- The demonstration state with every account nearly empty. -/
def poorState : State :=
  { demoState with accounts := fun _ => 3 }

/-! ### Ledger lemmas -/

/-- Reading back the key just written returns the written balance. -/
theorem ledgerGet_put_same (l : Ledger) (i : Nat) (w : AccountId) (b : Nat) :
    ledgerGet (ledgerPut l i w b) i w = some b := by
  induction l with
  | nil => simp [ledgerPut, ledgerGet]
  | cons e rest ih =>
    by_cases hk : e.1 = i ∧ e.2.1 = w
    · simp [ledgerPut, hk, ledgerGet]
    · simp [ledgerPut, hk, ledgerGet, ih]

/-- Writing one key leaves every other key's value unchanged. -/
theorem ledgerGet_put_other (l : Ledger) (i : Nat) (w : AccountId) (b : Nat)
    (i2 : Nat) (w2 : AccountId) (h : ¬(i = i2 ∧ w = w2)) :
    ledgerGet (ledgerPut l i w b) i2 w2 = ledgerGet l i2 w2 := by
  induction l with
  | nil => simp [ledgerPut, ledgerGet, h]
  | cons e rest ih =>
    by_cases hk : e.1 = i ∧ e.2.1 = w
    · simp [ledgerPut, hk, ledgerGet, hk.1, hk.2, h]
    · simp [ledgerPut, hk, ledgerGet, ih]

/-- Killing one key leaves every other key's value unchanged. -/
theorem ledgerGet_kill_other (l : Ledger) (i : Nat) (w : AccountId)
    (i2 : Nat) (w2 : AccountId) (h : ¬(i = i2 ∧ w = w2)) :
    ledgerGet (ledgerKill l i w) i2 w2 = ledgerGet l i2 w2 := by
  induction l with
  | nil => simp [ledgerKill]
  | cons e rest ih =>
    by_cases hk : e.1 = i ∧ e.2.1 = w
    · simp [ledgerKill, hk, ledgerGet, hk.1, hk.2, h]
    · simp [ledgerKill, hk, ledgerGet, ih]

/-! ### Ledger operations as trace events (for the round-trip claim) -/

/-- The two single-entry ledger mutators of the source. -/
inductive LOp
  | putOp (i : Nat) (w : AccountId) (b : Nat)
  | killOp (i : Nat) (w : AccountId)

/-- Apply one ledger mutator. -/
def applyLOp (s : State) : LOp → State
  | .putOp i w b => contribution_put s i w b
  | .killOp i w => contribution_kill s i w

/-- Apply a sequence of ledger mutators. -/
def applyLOps (s : State) : List LOp → State
  | [] => s
  | o :: rest => applyLOps (applyLOp s o) rest

/-- Whether a ledger mutator addresses the pair `(i, w)`. -/
def lopTouches : LOp → Nat → AccountId → Bool
  | .putOp j u _, i, w => decide (j = i ∧ u = w)
  | .killOp j u, i, w => decide (j = i ∧ u = w)

/-- Mutators that do not address `(i, w)` leave its value unchanged. -/
theorem contribution_get_applyLOps (s : State) (ops : List LOp) (i : Nat)
    (w : AccountId) (h : ∀ o ∈ ops, lopTouches o i w = false) :
    contribution_get (applyLOps s ops) i w = contribution_get s i w := by
  induction ops generalizing s with
  | nil => rfl
  | cons o rest ih =>
    have hrest : ∀ o' ∈ rest, lopTouches o' i w = false :=
      fun o' ho' => h o' (by simp [ho'])
    have hstep : contribution_get (applyLOp s o) i w = contribution_get s i w := by
      have ho := h o (by simp)
      cases o with
      | putOp j u b =>
        simp only [lopTouches, decide_eq_false_iff_not] at ho
        simp [applyLOp, contribution_put, contribution_get,
          ledgerGet_put_other s.ledger j u b i w ho]
      | killOp j u =>
        simp only [lopTouches, decide_eq_false_iff_not] at ho
        simp [applyLOp, contribution_kill, contribution_get,
          ledgerGet_kill_other s.ledger j u i w ho]
    calc contribution_get (applyLOps (applyLOp s o) rest) i w
        = contribution_get (applyLOp s o) i w := ih _ hrest
      _ = contribution_get s i w := hstep

/-! ### Error-path lemmas for `create` and `contribute` -/

/-- On a dispatch error, `contribute` changes nothing. -/
theorem step_contribute_error (cfg : Config) (s : State) (who : AccountId)
    (index value now : Nat) (e : DispatchError)
    (h : contribute cfg s who index value now = .error e) :
    step cfg s (.contribute who index value now) = s := by
  simp only [step, h]

/-- On a dispatch error, `create` changes nothing. -/
theorem step_create_error (cfg : Config) (s : State) (creator beneficiary : AccountId)
    (goal endBlock now : Nat) (e : DispatchError)
    (h : create cfg s creator beneficiary goal endBlock now = .error e) :
    step cfg s (.create creator beneficiary goal endBlock now) = s := by
  simp only [step, h]

/-- Claim C10: with `value` below the minimum, `contribute` fails with
`ContributionTooSmall` no matter whether the fund exists or its period
is over — the minimum check comes first. -/
theorem min_check_first (cfg : Config) (s : State) (who : AccountId)
    (index value now : Nat) (h : value < cfg.minContribution) :
    contribute cfg s who index value now = .error (.module .ContributionTooSmall) := by
  unfold contribute
  rw [if_neg (by omega)]

/-- Witness for C10 at a state where the fund index is also absent and
the deadline (of every existing fund) is also past. -/
theorem min_check_first_witness :
    (5 : Nat) < demoCfg.minContribution ∧
      contribute demoCfg demoState (.user 2) 3 5 50 =
        .error (.module .ContributionTooSmall) :=
  ⟨by decide, min_check_first demoCfg demoState (.user 2) 3 5 50 (by decide)⟩

/-- Claim C6: `create` fails with `EndTooEarly` exactly when `end` is
not strictly greater than the current block number. -/
theorem create_end_too_early_iff (cfg : Config) (s : State)
    (creator beneficiary : AccountId) (goal endBlock now : Nat) :
    create cfg s creator beneficiary goal endBlock now =
        .error (.module .EndTooEarly) ↔ endBlock ≤ now := by
  constructor
  · intro h
    by_contra hn
    unfold create at h
    rw [if_pos (by omega)] at h
    cases hw : currencyWithdraw s.accounts creator cfg.submissionDeposit with
    | none => simp [hw] at h
    | some acc1 => simp [hw] at h
  · intro h
    unfold create
    rw [if_neg (by omega)]

/-- Witness for C6: a creation ending at block 3 requested at block 5. -/
theorem create_end_too_early_iff_witness :
    create demoCfg demoState (.user 2) (.user 9) 100 3 5 =
      .error (.module .EndTooEarly) :=
  (create_end_too_early_iff demoCfg demoState (.user 2) (.user 9) 100 3 5).mpr
    (by decide)

/-- Claim C4: if the submission-deposit withdrawal fails, `create`
returns the propagated currency error and the whole state — fund
counter, fund map, ledger, balances — is unchanged. -/
theorem create_withdraw_fail_no_state_change (cfg : Config) (s : State)
    (creator beneficiary : AccountId) (goal endBlock now : Nat)
    (h1 : now < endBlock) (h2 : s.accounts creator < cfg.submissionDeposit) :
    create cfg s creator beneficiary goal endBlock now = .error .fundsUnavailable ∧
      step cfg s (.create creator beneficiary goal endBlock now) = s := by
  have hw : currencyWithdraw s.accounts creator cfg.submissionDeposit = none := by
    unfold currencyWithdraw
    rw [if_neg (by omega)]
  have hc : create cfg s creator beneficiary goal endBlock now =
      .error .fundsUnavailable := by
    unfold create
    rw [if_pos (by omega), hw]
  exact ⟨hc, step_create_error cfg s creator beneficiary goal endBlock now _ hc⟩

/-- Witness for C4: an account holding 3 cannot pay a deposit of 10. -/
theorem create_withdraw_fail_witness :
    create demoCfg poorState (.user 3) (.user 9) 100 10 0 =
        .error .fundsUnavailable ∧
      step demoCfg poorState (.create (.user 3) (.user 9) 100 10 0) = poorState :=
  create_withdraw_fail_no_state_change demoCfg poorState (.user 3) (.user 9)
    100 10 0 (by decide) (by decide)

/-- Claim C8: a `contribution_put` followed by any mutators that do not
address the same `(index, who)` pair, then `contribution_get` on that
pair, returns exactly the balance written. -/
theorem contribution_put_get_roundtrip (s : State) (i : Nat) (w : AccountId)
    (b : Nat) (ops : List LOp) (h : ∀ o ∈ ops, lopTouches o i w = false) :
    contribution_get (applyLOps (contribution_put s i w b) ops) i w = b := by
  rw [contribution_get_applyLOps _ _ _ _ h]
  simp [contribution_get, contribution_put, ledgerGet_put_same]

/-- Witness for C8: write 42 for `(0, user 7)`, mutate two other slots,
read 42 back. -/
theorem contribution_put_get_roundtrip_witness :
    (∀ o ∈ [LOp.putOp 1 (.user 7) 5, LOp.killOp 0 (.user 8)],
        lopTouches o 0 (.user 7) = false) ∧
      contribution_get
        (applyLOps (contribution_put demoState 0 (.user 7) 42)
          [LOp.putOp 1 (.user 7) 5, LOp.killOp 0 (.user 8)]) 0 (.user 7) = 42 :=
  ⟨by decide,
    contribution_put_get_roundtrip demoState 0 (.user 7) 42
      [LOp.putOp 1 (.user 7) 5, LOp.killOp 0 (.user 8)] (by decide)⟩

/-- Claim C9: `contribution_put` on one `(index, who)` slot leaves the
value of every different slot — same fund or different fund — unchanged. -/
theorem contribution_put_frame (s : State) (i : Nat) (w : AccountId) (b : Nat)
    (i2 : Nat) (w2 : AccountId) (h : ¬(i2 = i ∧ w2 = w)) :
    contribution_get (contribution_put s i w b) i2 w2 =
      contribution_get s i2 w2 := by
  have h' : ¬(i = i2 ∧ w = w2) := fun hc => h ⟨hc.1.symm, hc.2.symm⟩
  simp [contribution_get, contribution_put,
    ledgerGet_put_other s.ledger i w b i2 w2 h']

/-- Witness for C9: writing `(0, user 7)` does not disturb the slot of
another contributor of the same fund. -/
theorem contribution_put_frame_witness :
    ¬((1 : Nat) = 0 ∧ AccountId.user 8 = AccountId.user 7) ∧
      contribution_get (contribution_put demoState 0 (.user 7) 42) 1 (.user 8) =
        contribution_get demoState 1 (.user 8) :=
  ⟨by decide,
    contribution_put_frame demoState 0 (.user 7) 42 1 (.user 8) (by decide)⟩

/-! ### Success-path characterizations -/

/-- Exact shape of the state produced by a successful `contribute`. -/
theorem contribute_ok_spec (cfg : Config) (s : State) (who : AccountId)
    (index value now : Nat) (s' : State)
    (h : contribute cfg s who index value now = .ok s') :
    ∃ fund acc1, s.funds index = some fund ∧
      cfg.minContribution ≤ value ∧ now < fund.endBlock ∧
      currencyTransfer s.accounts who (fund_account_id index) value = some acc1 ∧
      s' = { accounts := acc1
             funds := fun j =>
               if j = index then
                 some { fund with raised := wrapAdd fund.raised value }
               else s.funds j
             fundCount := s.fundCount
             ledger := ledgerPut s.ledger index who
               (satAdd (contribution_get s index who) value) } := by
  unfold contribute at h
  split at h
  case isFalse => exact absurd h (by simp)
  case isTrue hmin =>
    split at h
    · exact absurd h (by simp)
    · next fund hf =>
      split at h
      case isTrue hend =>
        split at h
        · exact absurd h (by simp)
        · next acc1 ht =>
          simp only [Except.ok.injEq] at h
          exact ⟨fund, acc1, hf, hmin, hend, ht, h.symm⟩
      case isFalse hend => exact absurd h (by simp)

/-- Exact shape of the state produced by a successful `create`. -/
theorem create_ok_spec (cfg : Config) (s : State) (creator beneficiary : AccountId)
    (goal endBlock now : Nat) (s' : State)
    (h : create cfg s creator beneficiary goal endBlock now = .ok s') :
    ∃ acc1, now < endBlock ∧
      currencyWithdraw s.accounts creator cfg.submissionDeposit = some acc1 ∧
      s' = { accounts :=
               resolveCreating acc1 (fund_account_id s.fundCount) cfg.submissionDeposit
             funds := fun j =>
               if j = s.fundCount then
                 some { beneficiary := beneficiary
                        deposit := cfg.submissionDeposit
                        raised := 0
                        endBlock := endBlock
                        goal := goal }
               else s.funds j
             fundCount := (s.fundCount + 1) % IDXMOD
             ledger := s.ledger } := by
  unfold create at h
  split at h
  case isFalse => exact absurd h (by simp)
  case isTrue hend =>
    split at h
    · exact absurd h (by simp)
    · next acc1 hw =>
      simp only [Except.ok.injEq] at h
      exact ⟨acc1, hend, hw, h.symm⟩

/-- Claim C3: the three precondition failures of `contribute` return the
named errors in the source's order, and every failing `contribute` —
including one whose currency transfer fails — leaves the fund record,
the contribution ledger, the fund count, and all balances unchanged. -/
theorem contribute_error_cases (cfg : Config) (s : State) (who : AccountId)
    (index value now : Nat) :
    (value < cfg.minContribution →
      contribute cfg s who index value now =
        .error (.module .ContributionTooSmall)) ∧
    (cfg.minContribution ≤ value → s.funds index = none →
      contribute cfg s who index value now = .error (.module .InvalidIndex)) ∧
    (∀ fund, cfg.minContribution ≤ value → s.funds index = some fund →
      fund.endBlock ≤ now →
      contribute cfg s who index value now =
        .error (.module .ContributionPeriodOver)) ∧
    (∀ e, contribute cfg s who index value now = .error e →
      step cfg s (.contribute who index value now) = s) := by
  refine ⟨?_, ?_, ?_, ?_⟩
  · intro h
    unfold contribute
    rw [if_neg (by omega)]
  · intro hmin hnone
    unfold contribute
    rw [if_pos hmin, hnone]
  · intro fund hmin hsome hend
    unfold contribute
    rw [if_pos hmin, hsome]
    exact if_neg (by omega)
  · intro e he
    exact step_contribute_error cfg s who index value now e he

/-- Witness for C3, hitting all three precondition errors and the
no-mutation conclusion at concrete inputs. -/
theorem contribute_error_cases_witness :
    contribute demoCfg demoState (.user 2) 3 5 1 =
        .error (.module .ContributionTooSmall) ∧
      contribute demoCfg demoState (.user 2) 3 100 1 =
        .error (.module .InvalidIndex) ∧
      contribute demoCfg demoState (.user 2) 0 100 7 =
        .error (.module .ContributionPeriodOver) ∧
      step demoCfg demoState (.contribute (.user 2) 3 5 1) = demoState := by
  refine ⟨?_, ?_, ?_, ?_⟩
  · exact (contribute_error_cases demoCfg demoState (.user 2) 3 5 1).1 (by decide)
  · exact (contribute_error_cases demoCfg demoState (.user 2) 3 100 1).2.1
      (by decide) (by decide)
  · exact (contribute_error_cases demoCfg demoState (.user 2) 0 100 7).2.2.1
      demoFund (by decide) (by decide) (by decide)
  · exact (contribute_error_cases demoCfg demoState (.user 2) 3 5 1).2.2.2 _
      ((contribute_error_cases demoCfg demoState (.user 2) 3 5 1).1 (by decide))

/-- Claim C1 as amended: a successful `contribute` adds `value` to
`raised` with the balance type's unchecked, wrapping addition (the
source's `fund.raised += value`), and adds `value` to the caller's
ledger balance with saturating addition (`saturating_add`). -/
theorem contribute_increments_wrapping_and_saturating (cfg : Config) (s : State)
    (who : AccountId) (index value now : Nat)
    (h : resultOk (contribute cfg s who index value now) = true) :
    getRaised (step cfg s (.contribute who index value now)) index =
        wrapAdd (getRaised s index) value ∧
      contribution_get (step cfg s (.contribute who index value now)) index who =
        satAdd (contribution_get s index who) value := by
  cases hc : contribute cfg s who index value now with
  | error e => rw [hc] at h; exact absurd h (by simp [resultOk])
  | ok s' =>
    obtain ⟨fund, acc1, hf, -, -, -, hs'⟩ :=
      contribute_ok_spec cfg s who index value now s' hc
    have hstep : step cfg s (.contribute who index value now) = s' := by
      simp only [step, hc]
    rw [hstep, hs']
    constructor
    · unfold getRaised
      rw [hf]
      simp
    · simp [contribution_get, ledgerGet_put_same]

/-- Witness for C1's amended theorem: a successful 100-unit
contribution at block 2 to the demonstration fund. -/
theorem contribute_increments_witness :
    resultOk (contribute demoCfg demoState (.user 2) 0 100 2) = true ∧
      getRaised (step demoCfg demoState (.contribute (.user 2) 0 100 2)) 0 =
          wrapAdd (getRaised demoState 0) 100 ∧
        contribution_get (step demoCfg demoState (.contribute (.user 2) 0 100 2))
            0 (.user 2) =
          satAdd (contribution_get demoState 0 (.user 2)) 100 :=
  ⟨by decide,
    contribute_increments_wrapping_and_saturating demoCfg demoState (.user 2)
      0 100 2 (by decide)⟩

/-! ### Sum lemmas for the contribution ledger -/

/-- Replacing a slot moves the fund's sum from the old value to the new. -/
theorem sumFund_put_same (l : Ledger) (i : Nat) (w : AccountId) (b : Nat) :
    sumFund (ledgerPut l i w b) i + (ledgerGet l i w).getD 0 = sumFund l i + b := by
  induction l with
  | nil => simp [ledgerPut, sumFund, ledgerGet]
  | cons e rest ih =>
    obtain ⟨ei, ew, eb⟩ := e
    by_cases hk : ei = i ∧ ew = w
    · obtain ⟨rfl, rfl⟩ := hk
      simp [ledgerPut, sumFund, ledgerGet]
      omega
    · simp only [ledgerPut, if_neg hk, sumFund, ledgerGet]
      omega

/-- Writing into one fund's namespace leaves other funds' sums alone. -/
theorem sumFund_put_other (l : Ledger) (i : Nat) (w : AccountId) (b : Nat)
    (j : Nat) (h : j ≠ i) :
    sumFund (ledgerPut l i w b) j = sumFund l j := by
  induction l with
  | nil => simp [ledgerPut, sumFund, Ne.symm h]
  | cons e rest ih =>
    by_cases hk : e.1 = i ∧ e.2.1 = w
    · simp [ledgerPut, hk, sumFund, hk.1, Ne.symm h]
    · simp [ledgerPut, hk, sumFund, ih]

/-- A slot's value never exceeds its fund's sum. -/
theorem ledgerGetD_le_sumFund (l : Ledger) (i : Nat) (w : AccountId) :
    (ledgerGet l i w).getD 0 ≤ sumFund l i := by
  induction l with
  | nil => simp [ledgerGet, sumFund]
  | cons e rest ih =>
    by_cases hk : e.1 = i ∧ e.2.1 = w
    · simp [ledgerGet, hk, sumFund, hk.1]
    · simp only [ledgerGet, if_neg hk, sumFund]
      omega

/-- A namespace with no entries sums to zero. -/
theorem sumFund_empty_of_bound (l : Ledger) (g : Nat)
    (h : ∀ e ∈ l, e.1 < g) : sumFund l g = 0 := by
  induction l with
  | nil => rfl
  | cons e rest ih =>
    have he := h e (by simp)
    have hne : ¬ e.1 = g := by omega
    simp [sumFund, hne, ih (fun e' he' => h e' (by simp [he']))]

/-- Every entry of a `ledgerPut` result is the written entry or an old one. -/
theorem mem_ledgerPut (l : Ledger) (i : Nat) (w : AccountId) (b : Nat) :
    ∀ e ∈ ledgerPut l i w b, e = (i, w, b) ∨ e ∈ l := by
  induction l with
  | nil => simp [ledgerPut]
  | cons e' rest ih =>
    intro e he
    by_cases hk : e'.1 = i ∧ e'.2.1 = w
    · simp only [ledgerPut, if_pos hk, List.mem_cons] at he
      rcases he with he | he
      · exact Or.inl he
      · exact Or.inr (by simp [he])
    · simp only [ledgerPut, if_neg hk, List.mem_cons] at he
      rcases he with he | he
      · exact Or.inr (by simp [he])
      · rcases ih e he with h1 | h1
        · exact Or.inl h1
        · exact Or.inr (by simp [h1])

/-! ### Reachability invariant and monotonicity relation -/

/-- Inductive invariant tying a ghost count `g` of successful `create`s
to the state: the counter holds `g` modulo the index width, funds and
ledger entries live strictly below `g`, ledger balances are in range,
and each fund's `raised` equals its namespace sum. -/
def InvG (g : Nat) (s : State) : Prop :=
  g ≤ IDXMOD ∧
  s.fundCount = g % IDXMOD ∧
  (∀ i, (s.funds i).isSome = true → i < g) ∧
  (∀ e ∈ s.ledger, e.1 < g ∧ e.2.2 < W) ∧
  (∀ i f, s.funds i = some f → f.raised = sumFund s.ledger i)

/-- Genesis satisfies the invariant with ghost count zero. -/
theorem genesis_invG (init : AccountId → Nat) : InvG 0 (genesis init) := by
  refine ⟨by norm_num [IDXMOD], rfl, ?_, ?_, ?_⟩
  · intro i h; simp [genesis] at h
  · intro e he; simp [genesis] at he
  · intro i f h; simp [genesis] at h

/-- States `s ⟶ s'` where no fund record disappears, no `raised`
decreases, and no contribution-ledger balance decreases. -/
def Mono (s s' : State) : Prop :=
  (∀ i f, s.funds i = some f →
    ∃ f', s'.funds i = some f' ∧ f.raised ≤ f'.raised) ∧
  (∀ i w, contribution_get s i w ≤ contribution_get s' i w)

/-- `Mono` is reflexive. -/
theorem mono_refl (s : State) : Mono s s :=
  ⟨fun _ f h => ⟨f, h, le_refl _⟩, fun _ _ => le_refl _⟩

/-- `Mono` is transitive. -/
theorem mono_trans {a b c : State} (h1 : Mono a b) (h2 : Mono b c) : Mono a c := by
  refine ⟨fun i f hf => ?_, fun i w => le_trans (h1.2 i w) (h2.2 i w)⟩
  obtain ⟨f', hf', hr⟩ := h1.1 i f hf
  obtain ⟨f'', hf'', hr'⟩ := h2.1 i f' hf'
  exact ⟨f'', hf'', le_trans hr hr'⟩

/-- One `create` dispatch preserves the invariant (ghost count possibly
advancing by one) and is monotone, provided the counter has room. -/
theorem step_create_invG_mono (cfg : Config) (s : State) (g : Nat)
    (c b : AccountId) (gl e n : Nat)
    (hinv : InvG g s) (hg : g < IDXMOD) :
    ∃ g', g' ≤ g + 1 ∧ InvG g' (step cfg s (.create c b gl e n)) ∧
      Mono s (step cfg s (.create c b gl e n)) := by
  obtain ⟨hle, hcount, hfunds, hled, hsum⟩ := hinv
  cases hc : create cfg s c b gl e n with
  | error err =>
    rw [step_create_error cfg s c b gl e n err hc]
    exact ⟨g, by omega, ⟨hle, hcount, hfunds, hled, hsum⟩, mono_refl s⟩
  | ok s' =>
    have hstep : step cfg s (.create c b gl e n) = s' := by simp only [step, hc]
    obtain ⟨acc1, -, -, hs'⟩ := create_ok_spec cfg s c b gl e n s' hc
    have hidx : s.fundCount = g := by rw [hcount, Nat.mod_eq_of_lt hg]
    have hfresh : ∀ i, (s.funds i).isSome = true → i ≠ g :=
      fun i hi => by have := hfunds i hi; omega
    rw [hstep, hs']
    refine ⟨g + 1, le_refl _, ⟨by omega, ?_, ?_, ?_, ?_⟩, ?_, ?_⟩
    · simp only [hidx]
    · intro i hi
      simp only [hidx] at hi
      by_cases hig : i = g
      · omega
      · rw [if_neg hig] at hi
        have := hfunds i hi
        omega
    · intro e' he'
      have := hled e' he'
      exact ⟨by omega, this.2⟩
    · intro i f hf
      simp only [hidx] at hf
      by_cases hig : i = g
      · subst hig
        rw [if_pos rfl] at hf
        have hz : sumFund s.ledger i = 0 :=
          sumFund_empty_of_bound s.ledger i (fun e' he' => (hled e' he').1)
        simp only [Option.some.injEq] at hf
        rw [← hf, hz]
      · rw [if_neg hig] at hf
        exact hsum i f hf
    · intro i f hf
      have hne : i ≠ g := hfresh i (by simp [hf])
      refine ⟨f, ?_, le_refl _⟩
      simp only [hidx]
      rw [if_neg hne]
      exact hf
    · intro i w
      simp [contribution_get]

/-- One `contribute` dispatch preserves the invariant at the same ghost
count and is monotone, provided a successful one does not overflow the
fund's `raised`. -/
theorem step_contribute_invG_mono (cfg : Config) (s : State) (g : Nat)
    (who : AccountId) (index value n : Nat)
    (hinv : InvG g s)
    (hov : resultOk (contribute cfg s who index value n) = true →
      getRaised s index + value < W) :
    InvG g (step cfg s (.contribute who index value n)) ∧
      Mono s (step cfg s (.contribute who index value n)) := by
  obtain ⟨hle, hcount, hfunds, hled, hsum⟩ := hinv
  cases hc : contribute cfg s who index value n with
  | error err =>
    rw [step_contribute_error cfg s who index value n err hc]
    exact ⟨⟨hle, hcount, hfunds, hled, hsum⟩, mono_refl s⟩
  | ok s' =>
    have hstep : step cfg s (.contribute who index value n) = s' := by
      simp only [step, hc]
    obtain ⟨fund, acc1, hf, -, -, -, hs'⟩ :=
      contribute_ok_spec cfg s who index value n s' hc
    have hovr : fund.raised + value < W := by
      have := hov (by rw [hc]; rfl)
      rw [getRaised, hf] at this
      exact this
    have hidxlt : index < g := hfunds index (by simp [hf])
    have hgetle : (ledgerGet s.ledger index who).getD 0 ≤ sumFund s.ledger index :=
      ledgerGetD_le_sumFund s.ledger index who
    have hraised : fund.raised = sumFund s.ledger index := hsum index fund hf
    have hslotlt : contribution_get s index who + value < W := by
      have : contribution_get s index who ≤ sumFund s.ledger index := hgetle
      omega
    have hsat : satAdd (contribution_get s index who) value =
        contribution_get s index who + value := by
      unfold satAdd
      omega
    have hwrap : wrapAdd fund.raised value = fund.raised + value := by
      unfold wrapAdd
      exact Nat.mod_eq_of_lt hovr
    rw [hstep, hs']
    constructor
    · refine ⟨hle, hcount, ?_, ?_, ?_⟩
      · intro i hi
        simp only [] at hi
        by_cases hig : i = index
        · omega
        · rw [if_neg hig] at hi
          exact hfunds i hi
      · intro e' he'
        simp only [] at he'
        rcases mem_ledgerPut s.ledger index who _ e' he' with h1 | h1
        · subst h1
          refine ⟨hidxlt, ?_⟩
          show satAdd (contribution_get s index who) value < W
          rw [hsat]
          exact hslotlt
        · exact hled e' h1
      · intro i f hfv
        simp only [] at hfv ⊢
        by_cases hig : i = index
        · subst hig
          rw [if_pos rfl] at hfv
          simp only [Option.some.injEq] at hfv
          have hfr : f.raised = wrapAdd fund.raised value := by rw [← hfv]
          rw [hfr, hwrap, hsat]
          have hput := sumFund_put_same s.ledger i who
            (contribution_get s i who + value)
          have hCG : contribution_get s i who =
            (ledgerGet s.ledger i who).getD 0 := rfl
          omega
        · rw [if_neg hig] at hfv
          rw [hsat, sumFund_put_other s.ledger index who _ i hig]
          exact hsum i f hfv
    · constructor
      · intro i f hfv
        by_cases hig : i = index
        · subst hig
          rw [hf] at hfv
          simp only [Option.some.injEq] at hfv
          obtain rfl : fund = f := hfv
          refine ⟨{ fund with raised := wrapAdd fund.raised value }, by simp, ?_⟩
          show fund.raised ≤ wrapAdd fund.raised value
          rw [hwrap]
          omega
        · exact ⟨f, by simp only []; rw [if_neg hig]; exact hfv, le_refl _⟩
      · intro i w
        by_cases hiw : index = i ∧ who = w
        · obtain ⟨rfl, rfl⟩ := hiw
          show contribution_get s index who ≤
            (ledgerGet (ledgerPut s.ledger index who
              (satAdd (contribution_get s index who) value)) index who).getD 0
          rw [ledgerGet_put_same]
          simp only [Option.getD_some]
          rw [hsat]
          omega
        · show contribution_get s i w ≤
            (ledgerGet (ledgerPut s.ledger index who
              (satAdd (contribution_get s index who) value)) i w).getD 0
          rw [ledgerGet_put_other s.ledger index who _ i w hiw]
          exact le_refl _

/-! ### Trace-level lemmas -/

/-- Running an appended trace is running the pieces in order. -/
theorem run_append (cfg : Config) (l1 l2 : List Op) :
    ∀ s, run cfg s (l1 ++ l2) = run cfg (run cfg s l1) l2 := by
  induction l1 with
  | nil => intro s; rfl
  | cons op rest ih =>
    intro s
    simp only [List.cons_append, run]
    exact ih _

/-- `countCreates` adds over appended traces. -/
theorem countCreates_append (l1 l2 : List Op) :
    countCreates (l1 ++ l2) = countCreates l1 + countCreates l2 := by
  induction l1 with
  | nil => simp [countCreates]
  | cons op rest ih =>
    cases op with
    | create c b gl e n =>
      simp only [List.cons_append, countCreates, List.append_eq, ih]
      omega
    | contribute w i v n =>
      simp only [List.cons_append, countCreates, List.append_eq, ih]

/-- `noRaisedOverflow` decomposes over appended traces. -/
theorem noRaisedOverflow_append (cfg : Config) (l1 l2 : List Op) :
    ∀ s, noRaisedOverflow cfg s (l1 ++ l2) =
      (noRaisedOverflow cfg s l1 && noRaisedOverflow cfg (run cfg s l1) l2) := by
  induction l1 with
  | nil => intro s; simp [noRaisedOverflow, run]
  | cons op rest ih =>
    intro s
    simp only [List.cons_append, noRaisedOverflow, run, List.append_eq, ih,
      Bool.and_assoc]

/-- Trace induction: from an invariant state, a trace whose `create`s
fit under the index modulus and whose `contribute`s never overflow
`raised` ends in an invariant state, monotonically. -/
theorem run_invG_mono (cfg : Config) :
    ∀ (ops : List Op) (g : Nat) (s : State), InvG g s →
      g + countCreates ops ≤ IDXMOD →
      noRaisedOverflow cfg s ops = true →
      ∃ g', g' ≤ g + countCreates ops ∧ InvG g' (run cfg s ops) ∧
        Mono s (run cfg s ops) := by
  intro ops
  induction ops with
  | nil =>
    intro g s hinv _ _
    exact ⟨g, by simp [countCreates], hinv, mono_refl s⟩
  | cons op rest ih =>
    intro g s hinv hcount hov
    cases op with
    | create c b gl e n =>
      simp only [noRaisedOverflow, Bool.and_eq_true] at hov
      have hg : g < IDXMOD := by
        simp only [countCreates] at hcount
        omega
      obtain ⟨g1, hg1, hinv1, hmono1⟩ :=
        step_create_invG_mono cfg s g c b gl e n hinv hg
      have hcount1 : g1 + countCreates rest ≤ IDXMOD := by
        simp only [countCreates] at hcount
        omega
      obtain ⟨g', hg', hinv', hmono'⟩ :=
        ih g1 (step cfg s (.create c b gl e n)) hinv1 hcount1 hov.2
      refine ⟨g', ?_, hinv', mono_trans hmono1 hmono'⟩
      simp only [countCreates]
      omega
    | contribute who i v n =>
      simp only [noRaisedOverflow, Bool.and_eq_true] at hov
      have hovi : resultOk (contribute cfg s who i v n) = true →
          getRaised s i + v < W := by
        intro hr
        cases hc : contribute cfg s who i v n with
        | error err => rw [hc] at hr; exact absurd hr (by simp [resultOk])
        | ok s2 =>
          have hd := hov.1
          rw [hc] at hd
          exact of_decide_eq_true hd
      obtain ⟨hinv1, hmono1⟩ :=
        step_contribute_invG_mono cfg s g who i v n hinv hovi
      have hcount1 : g + countCreates rest ≤ IDXMOD := by
        simp only [countCreates] at hcount
        exact hcount
      obtain ⟨g', hg', hinv', hmono'⟩ :=
        ih g (step cfg s (.contribute who i v n)) hinv1 hcount1 hov.2
      refine ⟨g', ?_, hinv', mono_trans hmono1 hmono'⟩
      simp only [countCreates]
      omega

/-- Claim C2 as amended: for every trace of `create`s and `contribute`s
from genesis in which the fund counter cannot wrap (at most `2^32`
creates) and no successful `contribute` overflows its fund's `raised`
(the unchecked `raised += value` stays below `2^128`), every fund's
`raised` equals the sum of the contribution-ledger balances in its
namespace. -/
theorem raised_eq_ledger_sum_of_no_overflow (cfg : Config)
    (init : AccountId → Nat) (ops : List Op)
    (h1 : countCreates ops ≤ IDXMOD)
    (h2 : noRaisedOverflow cfg (genesis init) ops = true)
    (i : Nat) (f : FundInfo)
    (hf : (run cfg (genesis init) ops).funds i = some f) :
    f.raised = sumFund (run cfg (genesis init) ops).ledger i := by
  obtain ⟨g', -, hinv', -⟩ :=
    run_invG_mono cfg ops 0 (genesis init) (genesis_invG init) (by omega) h2
  exact hinv'.2.2.2.2 i f hf

/-- A small concrete trace for witnesses: one fund, one contribution. -/
def wOps : List Op :=
  [.create (.user 1) (.user 9) 300 10 0, .contribute (.user 1) 0 150 1]

/-- The fund record that trace produces at index 0. -/
def wFund : FundInfo :=
  { beneficiary := .user 9, deposit := 10, raised := 150, endBlock := 10, goal := 300 }

/-- Witness for C2's amended theorem on the small trace. -/
theorem raised_eq_ledger_sum_witness :
    countCreates wOps ≤ IDXMOD ∧
      noRaisedOverflow demoCfg (genesis (fun _ => 1000)) wOps = true ∧
      (run demoCfg (genesis (fun _ => 1000)) wOps).funds 0 = some wFund ∧
      wFund.raised = sumFund (run demoCfg (genesis (fun _ => 1000)) wOps).ledger 0 :=
  ⟨by decide, by decide, by decide,
    raised_eq_ledger_sum_of_no_overflow demoCfg (fun _ => 1000) wOps (by decide)
      (by decide) 0 wFund (by decide)⟩

/-! ### Overflow counterexample data -/

/-- Zero deposit, minimum contribution of 1. -/
def cexCfg : Config :=
  { submissionDeposit := 0, minContribution := 1, retirementPeriod := 5 }

/-- Two accounts each endowed with the maximum balance. -/
def cexInit : AccountId → Nat := fun a =>
  if a = AccountId.user 0 ∨ a = AccountId.user 1 then W - 1 else 0

/-- Create a fund and let `user 0` contribute the maximum balance. -/
def cexPrefix : List Op :=
  [.create (.user 0) (.user 9) 5 10 0, .contribute (.user 0) 0 (W - 1) 1]

/-- The state reached by `cexPrefix`: fund 0 has `raised = W - 1`. -/
def cexMid : State := run cexCfg (genesis cexInit) cexPrefix

/-- The prefix extended by a second maximum contribution from `user 1`,
which wraps `raised` around. -/
def cexOps : List Op := cexPrefix ++ [.contribute (.user 1) 0 (W - 1) 2]

/-- Counterexample to C1 as stated: a successful `contribute` whose
update of `raised` is not saturating (it wraps to `W - 2` instead of
capping at `W - 1`). -/
theorem contribute_raised_saturation_cex :
    resultOk (contribute cexCfg cexMid (.user 1) 0 (W - 1) 2) = true ∧
      getRaised (step cexCfg cexMid (.contribute (.user 1) 0 (W - 1) 2)) 0 ≠
        satAdd (getRaised cexMid 0) (W - 1) :=
  ⟨by decide, by decide⟩

/-- Counterexample to C2 as stated: after the overflowing trace, fund
0 exists but its `raised` (wrapped) differs from its ledger sum
(saturated per entry). -/
theorem raised_eq_ledger_sum_cex :
    ((run cexCfg (genesis cexInit) cexOps).funds 0).isSome = true ∧
      getRaised (run cexCfg (genesis cexInit) cexOps) 0 ≠
        sumFund (run cexCfg (genesis cexInit) cexOps).ledger 0 :=
  ⟨by decide, by decide⟩

/-- Claim C7 as amended: under the two implemented operations, along
any trace from genesis with at most `2^32` creates and no `raised`
overflow, from any intermediate point onward no fund record is removed,
no fund's `raised` decreases, and no contributor's ledger balance
decreases — there is no path returning contributions. -/
theorem no_withdraw_monotone (cfg : Config) (init : AccountId → Nat)
    (ops1 ops2 : List Op)
    (h1 : countCreates (ops1 ++ ops2) ≤ IDXMOD)
    (h2 : noRaisedOverflow cfg (genesis init) (ops1 ++ ops2) = true) :
    Mono (run cfg (genesis init) ops1) (run cfg (genesis init) (ops1 ++ ops2)) := by
  rw [countCreates_append] at h1
  rw [noRaisedOverflow_append cfg ops1 ops2 (genesis init), Bool.and_eq_true] at h2
  obtain ⟨g1, hg1, hinv1, -⟩ :=
    run_invG_mono cfg ops1 0 (genesis init) (genesis_invG init) (by omega) h2.1
  obtain ⟨g', -, -, hmono⟩ :=
    run_invG_mono cfg ops2 g1 (run cfg (genesis init) ops1) hinv1 (by omega) h2.2
  rw [run_append]
  exact hmono

/-- Witness for C7's amended theorem on the small trace extended by one
more contribution. -/
theorem no_withdraw_monotone_witness :
    countCreates (wOps ++ [Op.contribute (.user 2) 0 100 2]) ≤ IDXMOD ∧
      noRaisedOverflow demoCfg (genesis (fun _ => 1000))
        (wOps ++ [Op.contribute (.user 2) 0 100 2]) = true ∧
      Mono (run demoCfg (genesis (fun _ => 1000)) wOps)
        (run demoCfg (genesis (fun _ => 1000))
          (wOps ++ [Op.contribute (.user 2) 0 100 2])) :=
  ⟨by decide, by decide,
    no_withdraw_monotone demoCfg (fun _ => 1000) wOps
      [Op.contribute (.user 2) 0 100 2] (by decide) (by decide)⟩

/-- Counterexample to C7 as stated: one more successful `contribute`
makes fund 0's `raised` strictly decrease (wrap-around), so `raised` is
not monotone without the overflow proviso. -/
theorem raised_decrease_cex :
    getRaised (run cexCfg (genesis cexInit) cexOps) 0 < getRaised cexMid 0 := by
  decide

/-! ### Fund-index allocation -/

/-- `contribute` never touches the fund counter. -/
theorem step_contribute_fundCount (cfg : Config) (s : State) (w : AccountId)
    (i v n : Nat) :
    (step cfg s (.contribute w i v n)).fundCount = s.fundCount := by
  cases hc : contribute cfg s w i v n with
  | error e => rw [step_contribute_error cfg s w i v n e hc]
  | ok s' =>
    have hstep : step cfg s (.contribute w i v n) = s' := by simp only [step, hc]
    obtain ⟨fund, acc1, -, -, -, -, hs'⟩ := contribute_ok_spec cfg s w i v n s' hc
    rw [hstep, hs']

/-- A trace without `create`s allocates nothing and keeps the counter. -/
theorem run_no_creates (cfg : Config) :
    ∀ (ops : List Op) (s : State), countCreates ops = 0 →
      allocatedIndices cfg s ops = [] ∧ (run cfg s ops).fundCount = s.fundCount := by
  intro ops
  induction ops with
  | nil => intro s _; exact ⟨rfl, rfl⟩
  | cons op rest ih =>
    intro s h
    cases op with
    | create c b gl e n => simp [countCreates] at h
    | contribute w i v n =>
      have h' : countCreates rest = 0 := h
      obtain ⟨ha, hf⟩ := ih (step cfg s (.contribute w i v n)) h'
      refine ⟨ha, ?_⟩
      show (run cfg (step cfg s (.contribute w i v n)) rest).fundCount = _
      rw [hf, step_contribute_fundCount]

/-- While the counter cannot wrap, the indices a trace allocates
continue arithmetically from the current counter value. -/
theorem allocatedIndices_shape (cfg : Config) :
    ∀ (ops : List Op) (s : State), s.fundCount < IDXMOD →
      s.fundCount + countCreates ops ≤ IDXMOD →
      ∃ n, n ≤ countCreates ops ∧
        allocatedIndices cfg s ops =
          (List.range n).map (fun k => s.fundCount + k) := by
  intro ops
  induction ops with
  | nil =>
    intro s h1 h2
    exact ⟨0, by simp [countCreates], by simp [allocatedIndices]⟩
  | cons op rest ih =>
    intro s h1 h2
    cases op with
    | contribute w i v n =>
      have hfc := step_contribute_fundCount cfg s w i v n
      obtain ⟨m, hm, halloc⟩ := ih (step cfg s (.contribute w i v n))
        (by rw [hfc]; exact h1) (by rw [hfc]; exact h2)
      refine ⟨m, hm, ?_⟩
      show allocatedIndices cfg (step cfg s (.contribute w i v n)) rest = _
      rw [halloc, hfc]
    | create c b gl e n =>
      cases hc : create cfg s c b gl e n with
      | error err =>
        obtain ⟨m, hm, halloc⟩ := ih s h1
          (by simp only [countCreates] at h2; omega)
        refine ⟨m, by simp only [countCreates]; omega, ?_⟩
        simp only [allocatedIndices, hc]
        exact halloc
      | ok s' =>
        obtain ⟨acc1, -, -, hs'⟩ := create_ok_spec cfg s c b gl e n s' hc
        have hfc' : s'.fundCount = (s.fundCount + 1) % IDXMOD := by rw [hs']
        by_cases hlt : s.fundCount + 1 < IDXMOD
        · have hfc2 : s'.fundCount = s.fundCount + 1 := by
            rw [hfc', Nat.mod_eq_of_lt hlt]
          obtain ⟨m, hm, halloc⟩ := ih s' (by omega)
            (by simp only [countCreates] at h2; omega)
          refine ⟨m + 1, by simp only [countCreates]; omega, ?_⟩
          simp only [allocatedIndices, hc]
          rw [halloc, List.range_succ_eq_map, List.map_cons, List.map_map]
          have hfun : ((fun k => s.fundCount + k) ∘ Nat.succ) =
              fun k => s'.fundCount + k := by
            funext k
            simp only [Function.comp_apply, hfc2]
            omega
          rw [hfun, Nat.add_zero]
        · have hcc : countCreates rest = 0 := by
            simp only [countCreates] at h2
            omega
          obtain ⟨ha, -⟩ := run_no_creates cfg rest s' hcc
          refine ⟨1, by simp only [countCreates]; omega, ?_⟩
          simp only [allocatedIndices, hc]
          rw [ha]
          rfl

/-- Claim C5 as amended: for every trace from genesis containing at
most `2^32` `create` dispatches, the indices allocated by the
successful ones are exactly `0, 1, …, n-1` in order — strictly
increasing from zero, never reused. -/
theorem fund_indices_range_of_bounded_creates (cfg : Config)
    (init : AccountId → Nat) (ops : List Op)
    (h : countCreates ops ≤ IDXMOD) :
    ∃ n, allocatedIndices cfg (genesis init) ops = List.range n := by
  obtain ⟨n, -, halloc⟩ := allocatedIndices_shape cfg ops (genesis init)
    (by norm_num [genesis, IDXMOD]) (by simpa [genesis] using h)
  refine ⟨n, ?_⟩
  rw [halloc]
  show List.map (fun k => (genesis init).fundCount + k) (List.range n) = _
  simp [genesis]

/-- Witness for C5's amended theorem on the small trace. -/
theorem fund_indices_range_witness :
    countCreates wOps ≤ IDXMOD ∧
      ∃ n, allocatedIndices demoCfg (genesis (fun _ => 1000)) wOps =
        List.range n :=
  ⟨by decide,
    fund_indices_range_of_bounded_creates demoCfg (fun _ => 1000) wOps (by decide)⟩

/-- One always-succeeding `create` dispatch under `cexCfg` (zero
deposit, `end = 10`, issued at block 0). -/
def rep0 : Op := .create (.user 0) (.user 1) 5 10 0

/-- Replicated `rep0` dispatches allocate exactly the counter values
continuing modulo `IDXMOD` from the current counter. -/
theorem rep_alloc : ∀ (m : Nat) (s : State), s.fundCount < IDXMOD →
    allocatedIndices cexCfg s (List.replicate m rep0) =
      (List.range m).map (fun k => (s.fundCount + k) % IDXMOD) := by
  intro m
  induction m with
  | zero => intro s h; simp [allocatedIndices]
  | succ m ih =>
    intro s h
    rw [List.replicate_succ]
    show allocatedIndices cexCfg s
      (Op.create (.user 0) (.user 1) 5 10 0 :: List.replicate m rep0) = _
    cases hc : create cexCfg s (.user 0) (.user 1) 5 10 0 with
    | error err =>
      exfalso
      unfold create at hc
      rw [if_pos (by norm_num)] at hc
      unfold currencyWithdraw at hc
      rw [if_pos (by simp [cexCfg])] at hc
      exact absurd hc (by simp)
    | ok s' =>
      obtain ⟨acc1, -, -, hs'⟩ := create_ok_spec cexCfg s (.user 0) (.user 1)
        5 10 0 s' hc
      have hfc : s'.fundCount = (s.fundCount + 1) % IDXMOD := by rw [hs']
      have hlt : (s.fundCount + 1) % IDXMOD < IDXMOD :=
        Nat.mod_lt _ (by norm_num [IDXMOD])
      have hrest := ih s' (by rw [hfc]; exact hlt)
      simp only [allocatedIndices, hc]
      rw [hrest, List.range_succ_eq_map, List.map_cons, List.map_map]
      have hfun : ((fun k => (s.fundCount + k) % IDXMOD) ∘ Nat.succ) =
          fun k => (s'.fundCount + k) % IDXMOD := by
        funext k
        simp only [Function.comp_apply, hfc]
        rw [Nat.mod_add_mod]
        congr 1
        omega
      rw [hfun, Nat.add_zero, Nat.mod_eq_of_lt h]

/-- Counterexample to C5 as stated: after `2^32 + 1` successful
creates, the `u32` counter (incremented by the source's unguarded
`index + 1`) has wrapped and index 0 has been allocated twice — the
allocated indices are not duplicate-free. -/
theorem fund_index_reuse_cex :
    ¬ (allocatedIndices cexCfg (genesis (fun _ => 0))
        (List.replicate (IDXMOD + 1) rep0)).Nodup := by
  intro hnd
  rw [rep_alloc (IDXMOD + 1) (genesis (fun _ => 0))
    (by norm_num [genesis, IDXMOD])] at hnd
  simp only [genesis, Nat.zero_add] at hnd
  rw [List.range_succ, List.map_append, List.nodup_append] at hnd
  obtain ⟨-, -, hdisj⟩ := hnd
  have h0 : (0 : Nat) ∈ (List.range IDXMOD).map (fun k => k % IDXMOD) := by
    refine List.mem_map.mpr ⟨0, ?_, ?_⟩
    · simp [IDXMOD]
    · rfl
  have h1 : (0 : Nat) ∈ List.map (fun k => k % IDXMOD) [IDXMOD] := by
    simp [Nat.mod_self]
  exact hdisj h0 h1

end Crowdfund
